import Mathlib

/-!
Verification of the redoxer ephemeral-VM execution harness.

This file gives a shallow embedding, in Lean 4, of the algorithmic parts of
the redoxer harness (src/exec.rs, src/writer.rs, src/redoxfs.rs and the
in-guest supervisor daemon/src/main.rs) and proves properties of them.

Modelling conventions:
* Rust strings (`String`/`&str`) are modelled as `List Char` (written via
  `String.data` on literals), so that all definitions are executable and
  kernel-reducible.
* Machine integers (`i32`, `u64`, `i64`, bytes) are modelled as `Int`/`Nat`;
  none of the verified code relies on wrap-around behaviour.
* I/O effects (file reads/writes, subprocess calls, hardware port writes)
  are modelled either as explicit oracle parameters (the values the
  environment would return) or as explicit action/output traces, so that
  theorems can speak about which effects a code path performs.
-/

set_option autoImplicit false

/-- Rust strings are modelled as lists of characters. -/
abbrev Str : Type := List Char

deriving instance DecidableEq for Except

namespace Redoxer

namespace Exec

/-- Embedding of the exit-status match in `inner` (src/exec.rs):
`Some(51) => 0`, `Some(53) => 1`, anything else (including a signal
termination, `None`) `=> 2`.  The argument is `status.code()` of the
emulator child process. -/
def statusToCode (status : Option Int) : Int :=
  match status with
  | some 51 => 0
  | some 53 => 1
  | _ => 2

/-- Embedding of the final match in `main` (src/exec.rs): on `Ok(code)` the
process exits with `code`; on `Err(err)` it prints the error and exits
with `3`.  The `Except` argument is the result of `inner`. -/
def execMainCode (result : Except Str Int) : Int :=
  match result with
  | .ok code => code
  | .error _ => 3

/-- Rust `str::starts_with('-')`: the string begins with a dash. -/
def startsDash (s : Str) : Bool :=
  match s with
  | [] => false
  | c :: _ => c == '-'

/-- Embedding of the merge loop inside `apply_qemu_args` (src/exec.rs).
The Rust loop walks `default` by an index `i`; here the suffix
`default[i..]` is passed explicitly (so `default[i]` is the head and
`default[i + 1]` is the head of the tail).  The loop body:
a token not starting with a dash hits `continue` without advancing `i`
(an infinite loop in the source, modelled by fuel exhaustion returning
`none`); otherwise the flag is single if the next token is absent or
starts with a dash, the flag (and its value, if any) is copied unless the
flag occurs in `userOpts`, and `i` advances by 1 or 2. -/
def mergeLoop (userOpts userArgs : List Str) : Nat → List Str → List Str → Option (List Str)
  | 0, _, _ => none
  | _ + 1, acc, [] => some (acc ++ userArgs)
  | fuel + 1, acc, opt :: rest =>
    if startsDash opt = false then
      mergeLoop userOpts userArgs fuel acc (opt :: rest)
    else
      match rest with
      | [] =>
        mergeLoop userOpts userArgs fuel
          (if opt ∈ userOpts then acc else acc ++ [opt]) []
      | v :: rest2 =>
        if startsDash v then
          mergeLoop userOpts userArgs fuel
            (if opt ∈ userOpts then acc else acc ++ [opt]) (v :: rest2)
        else
          mergeLoop userOpts userArgs fuel
            (if opt ∈ userOpts then acc else acc ++ [opt, v]) rest2

/-- Embedding of `apply_qemu_args` (src/exec.rs): with user args present,
collect the dash-prefixed override tokens (`user_opts`), run the merge
loop over the defaults, and append the full override list; with no user
args the defaults are used verbatim.  `default.length + 1` fuel covers
every terminating run of the source loop (each iteration advances the
index by at least 1); `none` means the source loop would not terminate,
which happens only on malformed default lists. -/
def applyQemuArgs (default : List Str) (argsOpt : Option (List Str)) : Option (List Str) :=
  match argsOpt with
  | some userArgs =>
    mergeLoop (userArgs.filter (fun a => startsDash a)) userArgs (default.length + 1) [] default
  | none => some default

/-- Spec-side definition (from the spec text of the Argument Merger, for
the refinement proof): a defaults list is valid when it alternates flags
and values, a flag being single when the following token is absent or
starts with a dash. -/
def wfDefaults : List Str → Bool
  | [] => true
  | [f] => startsDash f
  | f :: v :: rest =>
    startsDash f && (if startsDash v then wfDefaults (v :: rest) else wfDefaults rest)

/-- Spec-side definition (from the spec text of the Argument Merger, for
the refinement proof): walk the defaults once; for each flag not present
in the override set, copy it (and its value, if any) into the output;
flags present in the override set are dropped entirely. -/
def copyDefaults (userOpts : List Str) : List Str → List Str
  | [] => []
  | [f] => if f ∈ userOpts then [] else [f]
  | f :: v :: rest =>
    if startsDash v then
      (if f ∈ userOpts then [] else [f]) ++ copyDefaults userOpts (v :: rest)
    else
      (if f ∈ userOpts then [] else [f, v]) ++ copyDefaults userOpts rest

/-- The distinct `bail!`/panic sites of `RedoxerExecConfig::new` and
`parse_folder` (src/exec.rs), as an error enumeration (the source uses
`anyhow` string errors; only which site fired matters here). -/
inductive ArgErr
  | folderNotUnique
  | folderNotAbsolute
  | folderBadFormat
  | missingValue
  | helpRequested
  | installConfigNameReserved
  | installConfigUnreadable
  | artifactsRequireFuse
deriving DecidableEq

/-- First result of `folder.split(":")` in `parse_folder`: the host
directory part of a `directory:path` mapping token. -/
def dirPart (folder : Str) : Str :=
  folder.takeWhile (fun c => c ≠ ':')

/-- Second result of `folder.split(":")` in `parse_folder` (for a token
with exactly one colon): the guest path part of a `directory:path`
mapping token. -/
def sysrootPart (folder : Str) : Str :=
  (folder.dropWhile (fun c => c ≠ ':')).drop 1

/-- The `map.insert(sysroot[1..].to_string(), dir).is_some()` check at the
end of `parse_folder`: inserting a mapping fails when the guest mount key
(the guest path without its leading slash) is already present in the same
map.  `HashMap` is modelled as an association list keyed by the guest
mount key. -/
def insertMapping (map : List (Str × Str)) (dir sysroot : Str) :
    Except ArgErr (List (Str × Str)) :=
  if (map.lookup (sysroot.drop 1)).isSome = true then .error .folderNotUnique
  else .ok (map ++ [(sysroot.drop 1, dir)])

/-- Embedding of `parse_folder` (src/exec.rs): zero colons means the guest
path defaults to `/root`; exactly one colon splits `directory:path` and
requires the guest path to be absolute; more colons is a format error. -/
def parseFolder (map : List (Str × Str)) (folder : Str) :
    Except ArgErr (List (Str × Str)) :=
  if folder.count ':' = 0 then insertMapping map folder "/root".data
  else if folder.count ':' = 1 then
    if List.isPrefixOf ['/'] (sysrootPart folder) = true then
      insertMapping map (dirPart folder) (sysrootPart folder)
    else .error .folderNotAbsolute
  else .error .folderBadFormat

/-- Spec-side: the guest mount path a mapping token denotes, if the token
is well formed (`directory` defaults to `/root`; `directory:path` requires
an absolute path). -/
def guestPathOf (folder : Str) : Option Str :=
  if folder.count ':' = 0 then some "/root".data
  else if folder.count ':' = 1 then
    if List.isPrefixOf ['/'] (sysrootPart folder) = true then some (sysrootPart folder)
    else none
  else none

/-- The configuration produced by `RedoxerExecConfig::new` (src/exec.rs).
The two `HashMap`s are modelled as association lists keyed by guest mount
key, in insertion order. -/
structure ExecConfig where
  qemuBinary : Option Str
  qemuArgs : Option Str
  fuse : Bool
  configName : Str
  configToml : Str
  folders : List (Str × Str)
  artifacts : List (Str × Str)
  output : Option Str
  arguments : List Str
deriving DecidableEq

/-- The environment `RedoxerExecConfig::new` consults: environment
variables (already parsed), the bundled TOML texts, and filesystem oracles
for the `--install-config` file read, its file stem, and the `is_file`
probe on the first command argument. -/
structure ExecEnv where
  qemuBinaryEnv : Option Str
  qemuArgsEnv : Option Str
  fuse : Bool
  baseTomlText : Str
  guiTomlText : Str
  readFile : Str → Option Str
  fileStem : Str → Str
  isFile : Str → Bool

/-- Embedding of the flag-matching loop of `RedoxerExecConfig::new`
(src/exec.rs): `matching` is cleared by `--` or by the first positional
argument, after which every token is pushed to `arguments`. -/
def execNewLoop (env : ExecEnv) : List Str → Bool → ExecConfig → Except ArgErr ExecConfig
  | [], _, cfg => .ok cfg
  | arg :: rest, matching, cfg =>
    if matching ∧ (arg = "-f".data ∨ arg = "--folder".data) then
      match rest with
      | folder :: rest2 =>
        match parseFolder cfg.folders folder with
        | .ok m => execNewLoop env rest2 matching { cfg with folders := m }
        | .error e => .error e
      | [] => .error .missingValue
    else if matching ∧ (arg = "-a".data ∨ arg = "--artifact".data) then
      match rest with
      | folder :: rest2 =>
        match parseFolder cfg.artifacts folder with
        | .ok m => execNewLoop env rest2 matching { cfg with artifacts := m }
        | .error e => .error e
      | [] => .error .missingValue
    else if matching ∧ (arg = "-g".data ∨ arg = "--gui".data) then
      execNewLoop env rest matching
        { cfg with configName := "gui".data, configToml := env.guiTomlText }
    else if matching ∧ (arg = "-i".data ∨ arg = "--install-config".data) then
      match rest with
      | file :: rest2 =>
        let name := env.fileStem file
        if name = "base".data ∨ name = "gui".data then .error .installConfigNameReserved
        else
          match env.readFile file with
          | some toml =>
            execNewLoop env rest2 matching
              { cfg with configName := name, configToml := toml }
          | none => .error .installConfigUnreadable
      | [] => .error .missingValue
    else if matching ∧ (arg = "-h".data ∨ arg = "--help".data) then
      .error .helpRequested
    else if matching ∧ (arg = "-o".data ∨ arg = "--output".data) then
      match rest with
      | o :: rest2 => execNewLoop env rest2 matching { cfg with output := some o }
      | [] => .error .missingValue
    else if matching ∧ arg = "--".data then
      execNewLoop env rest false cfg
    else
      execNewLoop env rest false { cfg with arguments := cfg.arguments ++ [arg] }

/-- Embedding of `RedoxerExecConfig::new` (src/exec.rs): run the flag
loop from the defaults, then auto-insert a `root` folder from the first
command argument when it is a file whose name contains a slash, and
finally require fuse mode when artifacts were requested. -/
def execNew (env : ExecEnv) (args : List Str) : Except ArgErr ExecConfig :=
  let cfg0 : ExecConfig :=
    { qemuBinary := env.qemuBinaryEnv
      qemuArgs := env.qemuArgsEnv
      fuse := env.fuse
      configName := "base".data
      configToml := env.baseTomlText
      folders := []
      artifacts := []
      output := none
      arguments := [] }
  match execNewLoop env args true cfg0 with
  | .error e => .error e
  | .ok cfg =>
    let cfg2 :=
      if (cfg.folders.lookup "root".data).isNone then
        match cfg.arguments.head? with
        | some cmd =>
          if env.isFile cmd then
            if '/' ∈ cmd then { cfg with folders := cfg.folders ++ [("root".data, cmd)] }
            else cfg
          else cfg
        | none => cfg
      else cfg
    if cfg2.artifacts ≠ [] ∧ cfg2.fuse = false then .error .artifactsRequireFuse
    else .ok cfg2

/-- The filesystem effects the `base` builder (src/exec.rs) can perform,
in order of execution.  Each constructor is one I/O call site in the
source; the install/compress steps are opaque external services. -/
inductive BaseAct
  | removeToml
  | removeFile
  | removeDir
  | createDir
  | removeStaged
  | installMount
  | shrinkDisk
  | installToDir
  | tarCompress
  | renameStaged
  | writeToml
deriving DecidableEq

/-- The cache directory state the `base` builder (src/exec.rs) reads and
writes, for one configuration name: whether `{name}.{ext}` exists, the
content of `{name}.toml` (none when absent), whether the `{name}` build
directory, the `{name}.{ext}.partial` staging file and the `{name}.tar`
archive (the CI fast path input) exist. -/
structure BaseState where
  baseFile : Bool
  baseToml : Option Str
  baseDir : Bool
  staged : Bool
  baseTar : Bool
deriving DecidableEq

/-- The cached image extension: `bin` in fuse (mountable) mode, `tar` in
archive mode. -/
def baseExt (fuse : Bool) : Str :=
  if fuse then "bin".data else "tar".data

/-- The cached image path for a configuration name (relative to the
redoxer directory). -/
def basePath (name : Str) (fuse : Bool) : Str :=
  name ++ ".".data ++ baseExt fuse

/-- The manifest-drift check at the top of `base` (src/exec.rs): when both
the recorded manifest and the cached image exist but the manifest differs
from the requested one, both are deleted. -/
def baseStale (st : BaseState) (cfgStr : Str) : BaseState × List BaseAct :=
  if st.baseToml.isSome = true ∧ st.baseFile = true ∧ st.baseToml ≠ some cfgStr then
    ({ st with baseToml := none, baseFile := false }, [.removeToml, .removeFile])
  else (st, [])

/-- The build block of `base` (src/exec.rs), entered when no cached image
exists: recreate the build directory, clear a stale staging file, install
(mount mode: `run_install_mount`, plus a disk shrink when no `{name}.tar`
fast-path archive exists; archive mode: `run_install_to_dir` then `tar`),
rename the staging file into place, remove the build directory, and record
the manifest. -/
def baseBuild (st : BaseState) (cfgStr : Str) (fuse : Bool) : BaseState × List BaseAct :=
  ({ st with
      baseFile := true
      baseToml := some cfgStr
      baseDir := false
      staged := false
      baseTar := if fuse then st.baseTar else true },
   (if st.baseDir = true then [BaseAct.removeDir] else []) ++ [BaseAct.createDir] ++
   (if st.staged = true then [BaseAct.removeStaged] else []) ++
   (if fuse then
      [BaseAct.installMount] ++ (if st.baseTar = false then [BaseAct.shrinkDisk] else [])
    else [BaseAct.installToDir, BaseAct.tarCompress]) ++
   [BaseAct.renameStaged, BaseAct.removeDir, BaseAct.writeToml])

/-- Embedding of `base` (src/exec.rs).  `parseOk` is whether
`toml::from_str` accepts the manifest and `hasOrbital` whether it lists
the `orbital` package (both are functions of `cfgStr` computed by the
external TOML parser).  On success it returns the new cache state, the
ordered list of effects performed, and the `(base_file, has_orbital)`
result pair. -/
def base (name : Str) (st : BaseState) (cfgStr : Str)
    (fuse parseOk hasOrbital : Bool) :
    Except Unit (BaseState × List BaseAct × (Str × Bool)) :=
  if parseOk = false then .error ()
  else
    if (baseStale st cfgStr).1.baseFile = true then
      .ok ((baseStale st cfgStr).1, (baseStale st cfgStr).2, (basePath name fuse, hasOrbital))
    else
      .ok ((baseBuild (baseStale st cfgStr).1 cfgStr fuse).1,
        (baseStale st cfgStr).2 ++ (baseBuild (baseStale st cfgStr).1 cfgStr fuse).2,
        (basePath name fuse, hasOrbital))

end Exec

namespace Writer

/-- Fuel-indexed embedding of Rust `str::replace`: replace every
non-overlapping occurrence of `pat`, scanning left to right.  The fuel is
always instantiated with more than the length of the subject string, which
makes the definition total and kernel-reducible; `replace` is only ever
called with a canonicalized path as `pat`, which is nonempty, so the
Rust empty-pattern edge case is irrelevant (the guard keeps the
definition total on it anyway). -/
def replaceFuel (pat rep : Str) : Nat → Str → Str
  | 0, s => s
  | _ + 1, [] => []
  | fuel + 1, c :: cs =>
    if pat ≠ [] ∧ pat.isPrefixOf (c :: cs) = true then
      rep ++ replaceFuel pat rep fuel ((c :: cs).drop pat.length)
    else
      c :: replaceFuel pat rep fuel cs

/-- Rust `arg.replace(pat, rep)`. -/
def replaceAll (s pat rep : Str) : Str :=
  replaceFuel pat rep (s.length + 1) s

/-- Embedding of the per-argument body of `write_redoxerd_config`
(src/writer.rs).  `canonical` is the result of `fs::canonicalize` on the
root folder mapping (`None` when no root folder is declared); it is an
absolute path.  If the argument starts with the canonicalized folder path,
every occurrence of that path is replaced by `"/root"` and the
substitution is logged (second component `true`); otherwise the argument
is emitted verbatim with no log line. -/
def configLine (canonical : Option Str) (arg : Str) : Str × Bool :=
  match canonical with
  | some folderCanonical =>
    if folderCanonical.isPrefixOf arg then
      (replaceAll arg folderCanonical "/root".data, true)
    else
      (arg, false)
  | none => (arg, false)

/-- The text of `/etc/redoxerd` written by `write_redoxerd_config`: one
(line, newline) pair per argument, in order. -/
def redoxerdConfig (canonical : Option Str) (args : List Str) : Str :=
  (args.map (fun a => (configLine canonical a).1 ++ ['\n'])).flatten

end Writer

namespace Daemon

/-- One result of `syscall::read` on the PTY master in `handle`
(daemon/src/main.rs): `ok bytes` is `Ok(count)` with the bytes read
(`ok []` is the zero-length read, meaning the slave side closed), `again`
is `Err(EAGAIN)` on the non-blocking descriptor, `fail` any other error. -/
inductive PtyRead
  | ok (bytes : List Nat)
  | again
  | fail
deriving DecidableEq

/-- Observable guest-side output of the event handlers: one
`syscall::write(1, ..)` of a byte slice, one one-byte write to the QEMU
debugcon port `0xe9`, or one rescheduling write to the timer descriptor. -/
inductive Output
  | stdout (bytes : List Nat)
  | debugcon (b : Nat)
  | timerWrite (sec : Int)
deriving DecidableEq

/-- The 4096-byte `packet` buffer just after a read that placed `bytes` at
its start (the remainder is irrelevant padding, zeroed here). -/
def readPacket (bytes : List Nat) : List Nat :=
  bytes ++ List.replicate (4096 - bytes.length) 0

/-- The slice `&packet[1..count]` written to stdout. -/
def stdoutSlice (packet : List Nat) (count : Nat) : List Nat :=
  (packet.take count).drop 1

/-- The byte sequence of the `for i in 1..count` debugcon loop:
`packet[i]` for each `i` from 1 to `count - 1`, in order. -/
def debugconSeq (packet : List Nat) (count : Nat) : List Nat :=
  ((List.range count).drop 1).map (fun i => packet.getD i 0)

/-- Result of the PTY drain loop in `handle` (daemon/src/main.rs): the
outputs performed, the value of `handle_event` (`some true` = keep
looping, `some false` = begin draining, `none` = I/O error), and the
unconsumed remainder of the read oracle. -/
structure DrainOut where
  outs : List Output
  cont : Option Bool
  rest : List PtyRead
deriving DecidableEq

/-- Embedding of the `EventData::Pty` arm of `handle_event`
(daemon/src/main.rs): loop reading the master; `Ok(0)` returns false
(drain), `EAGAIN` returns true (no more data), other errors propagate;
for `Ok(count)` write `packet[1..count]` to stdout in one write, then
mirror `packet[i]` for `i in 1..count` to the debugcon port one byte at a
time, and read again.  An exhausted oracle is treated as no more data. -/
def drainPty : List PtyRead → DrainOut
  | [] => ⟨[], some true, []⟩
  | .ok bytes :: rest =>
    if bytes.length = 0 then ⟨[], some false, rest⟩
    else
      ⟨(Output.stdout (stdoutSlice (readPacket bytes) bytes.length) ::
         (debugconSeq (readPacket bytes) bytes.length).map Output.debugcon) ++
        (drainPty rest).outs,
       (drainPty rest).cont, (drainPty rest).rest⟩
  | .again :: rest => ⟨[], some true, rest⟩
  | .fail :: rest => ⟨[], none, rest⟩

/-- The two event sources registered with the event queue
(daemon/src/main.rs, `EventData`). -/
inductive EvData
  | pty
  | timer
deriving DecidableEq

/-- Result of one `handle_event` call: its return value (as in
`DrainOut.cont`), the remaining read oracles, and the outputs. -/
structure EvOut where
  cont : Option Bool
  pty : List PtyRead
  timer : List (Option Int)
  outs : List Output
deriving DecidableEq

/-- Embedding of `handle_event` (daemon/src/main.rs).  The timer oracle
yields `some t` for a successful read of a timespec with seconds `t`
(after which the handler writes back `t + 1` and returns true) and `none`
for a read error (which propagates); an exhausted timer oracle is a read
error. -/
def handleEvent (ev : EvData) (pty : List PtyRead) (timer : List (Option Int)) : EvOut :=
  match ev with
  | .pty => ⟨(drainPty pty).cont, (drainPty pty).rest, timer, (drainPty pty).outs⟩
  | .timer =>
    match timer with
    | [] => ⟨none, pty, [], []⟩
    | none :: rest => ⟨none, pty, rest, []⟩
    | some t :: rest => ⟨some true, pty, rest, [Output.timerWrite (t + 1)]⟩

/-- One result of `process.try_wait()`: the child exited with a status,
is still running (`Ok(None)` or `Err(WouldBlock)`, which the source
treats identically), or the call failed with another error. -/
inductive TryWait
  | exited (s : Int)
  | running
  | wouldBlock
  | fail
deriving DecidableEq

/-- Result of `handle` (daemon/src/main.rs): the `ExitStatus` returned
together with whether `process.kill()` was invoked to obtain it, or a
propagated I/O error (in which case the child is not killed by `handle`). -/
inductive HandleRes
  | status (s : Int) (killed : Bool)
  | ioErr
deriving DecidableEq

/-- Embedding of the `'events` loop of `handle` (daemon/src/main.rs).
Each iteration first checks `try_wait` (consuming one oracle entry; an
exhausted oracle means the child is still running): a child exit returns
its real status with no kill, a `try_wait` failure propagates the error.
Otherwise the loop blocks on `next_event` (an exhausted event oracle
blocks forever, `none`) and handles the event: handler error propagates,
handler `false` (terminal closed) breaks out to `process.kill()` followed
by a blocking `process.wait()` returning `w`. -/
def loopRun (w : Int) : List EvData → List TryWait → List PtyRead → List (Option Int) →
    Option (HandleRes × List Output)
  | [], tws, _, _ =>
    match tws.headD TryWait.running with
    | .exited s => some (.status s false, [])
    | .fail => some (.ioErr, [])
    | _ => none
  | ev :: evs2, tws, pty, timer =>
    match tws.headD TryWait.running with
    | .exited s => some (.status s false, [])
    | .fail => some (.ioErr, [])
    | _ =>
      match (handleEvent ev pty timer).cont with
      | none => some (.ioErr, (handleEvent ev pty timer).outs)
      | some false => some (.status w true, (handleEvent ev pty timer).outs)
      | some true =>
        match loopRun w evs2 tws.tail (handleEvent ev pty timer).pty
            (handleEvent ev pty timer).timer with
        | none => none
        | some (res, outs2) => some (res, (handleEvent ev pty timer).outs ++ outs2)

/-- The oracles a run of `handle` (daemon/src/main.rs) consumes: PTY
reads, timer reads, `try_wait` results, ready events, and the status the
final blocking `process.wait()` would deliver after a kill. -/
structure DaemonEnv where
  ptyReads : List PtyRead
  timerReads : List (Option Int)
  tryWaits : List TryWait
  events : List EvData
  waitStatus : Int

/-- Embedding of `handle` (daemon/src/main.rs): one initial Pty handler
call and one initial Timer handler call (errors propagate without
killing; a `false` skips the loop and goes straight to kill-and-wait),
then the `'events` loop. -/
def handle (env : DaemonEnv) : Option (HandleRes × List Output) :=
  match (handleEvent .pty env.ptyReads env.timerReads).cont with
  | none => some (.ioErr, (handleEvent .pty env.ptyReads env.timerReads).outs)
  | some false =>
    some (.status env.waitStatus true, (handleEvent .pty env.ptyReads env.timerReads).outs)
  | some true =>
    match (handleEvent .timer (handleEvent .pty env.ptyReads env.timerReads).pty
      (handleEvent .pty env.ptyReads env.timerReads).timer).cont with
    | none => some (.ioErr, (handleEvent .pty env.ptyReads env.timerReads).outs ++
        (handleEvent .timer (handleEvent .pty env.ptyReads env.timerReads).pty
          (handleEvent .pty env.ptyReads env.timerReads).timer).outs)
    | some false =>
      some (.status env.waitStatus true,
        (handleEvent .pty env.ptyReads env.timerReads).outs ++
        (handleEvent .timer (handleEvent .pty env.ptyReads env.timerReads).pty
          (handleEvent .pty env.ptyReads env.timerReads).timer).outs)
    | some true =>
      match loopRun env.waitStatus env.events env.tryWaits
          (handleEvent .timer (handleEvent .pty env.ptyReads env.timerReads).pty
            (handleEvent .pty env.ptyReads env.timerReads).timer).pty
          (handleEvent .timer (handleEvent .pty env.ptyReads env.timerReads).pty
            (handleEvent .pty env.ptyReads env.timerReads).timer).timer with
      | none => none
      | some (res, outs) =>
        some (res, (handleEvent .pty env.ptyReads env.timerReads).outs ++
          (handleEvent .timer (handleEvent .pty env.ptyReads env.timerReads).pty
            (handleEvent .pty env.ptyReads env.timerReads).timer).outs ++ outs)

/-- Spec-side: the outputs the drain loop is expected to produce for a
sequence of successful reads: per read, one stdout write of everything
but the first byte, then that same tail mirrored bytewise to debugcon. -/
def drainOutsOf (front : List (List Nat)) : List Output :=
  front.foldr (fun bs acc =>
    (Output.stdout (bs.drop 1) :: (bs.drop 1).map Output.debugcon) ++ acc) []

/-- One hardware/console effect of the daemon `main`
(daemon/src/main.rs): a 16-bit or 8-bit x86 port write, a line on the
guest error stream, or the flush sleep. -/
inductive HostSignal
  | portWrite16 (port : Nat) (val : Nat)
  | portWrite8 (port : Nat) (val : Nat)
  | errLine (msg : Str)
  | sleepMs (ms : Nat)
deriving DecidableEq

/-- Embedding of the daemon `main` (daemon/src/main.rs): on `Ok` from
`inner`, write `0x2000` to port `0x604` and the completion code `51 / 2`
to port `0x501`; on `Err`, print the error line, sleep 100 ms for the tty
flush, and write the completion code `53 / 2` to port `0x501`. -/
def daemonMain (r : Except Str Unit) : List HostSignal :=
  match r with
  | .ok _ => [.portWrite16 0x604 0x2000, .portWrite8 0x501 (51 / 2)]
  | .error e => [.errLine e, .sleepMs 100, .portWrite8 0x501 (53 / 2)]

/-- Whether a signal is a write (of either width) to the shutdown port
`0x604`. -/
def writesShutdownPort (o : HostSignal) : Bool :=
  match o with
  | .portWrite16 p _ => p == 0x604
  | .portWrite8 p _ => p == 0x604
  | _ => false

end Daemon

namespace RFs

/-- `redoxfs::BLOCK_SIZE` (the external filesystem library's constant). -/
def BLOCK_SIZE : Nat := 4096

/-- One entry of the filesystem's allocation log: a free extent starting
at block `index` covering `count` blocks (`count` is a signed `i64`;
entries with `count <= 0` are skipped by the scan). -/
structure AllocEntry where
  index : Nat
  count : Int
deriving DecidableEq

/-- The filesystem state `resize` (src/redoxfs.rs) reads and mutates:
the raw disk size in bytes (`fs.disk.size()`), the header block offset
(`fs.block`), the declared size (`fs.header.size()`), the allocation log
entries in scan order (following the `prev` chain), and the allocator's
free block indices. -/
structure FsModel where
  diskSize : Nat
  block : Nat
  headerSize : Nat
  allocLog : List AllocEntry
  free : List Nat
deriving DecidableEq

/-- One step of the free-extent scan in `resize` (src/redoxfs.rs): skip
non-positive counts; otherwise, if this extent ends past every one seen
so far, it becomes `last_free` and its end becomes `last_end`. -/
def scanStep (st : Option AllocEntry × Nat) (e : AllocEntry) : Option AllocEntry × Nat :=
  if e.count ≤ 0 then st
  else if e.index + e.count.toNat > st.2 then (some e, e.index + e.count.toNat)
  else st

/-- The full scan of the allocation log (the `fs.tx(..)` read loop in
`resize`), producing `(last_free, last_end)` from `(None, 0)`. -/
def scanFree (entries : List AllocEntry) : Option AllocEntry × Nat :=
  entries.foldl scanStep (none, 0)

/-- `min_size` in `resize`: the start of the last free extent, in bytes;
the current declared size when the log shows no free extent. -/
def minSize (fs : FsModel) : Nat :=
  match (scanFree fs.allocLog).1 with
  | some e => e.index * BLOCK_SIZE
  | none => fs.headerSize

/-- `max_size` in `resize`: the raw disk size minus the reserved header
region. -/
def maxSize (fs : FsModel) : Nat :=
  fs.diskSize - fs.block * BLOCK_SIZE

/-- `new_size` in `resize`: minimal safe size when shrinking, maximal
size when expanding. -/
def newSizeOf (fs : FsModel) (shrink : Bool) : Nat :=
  if shrink then minSize fs else maxSize fs

/-- The external allocator's `allocate_exact(addr)`: succeeds, removing
the block, exactly when that block is free. -/
def allocateExact (free : List Nat) (i : Nat) : Option (List Nat) :=
  if i ∈ free then some (free.erase i) else none

/-- The external allocator's `deallocate(addr)`: return the block to the
free pool. -/
def deallocate (free : List Nat) (i : Nat) : List Nat :=
  i :: free

/-- The shrink direction of the `for index in start..end` loop in
`resize`, with the iteration count made explicit: allocate each block of
the vacated tail range in turn; `assert_eq!(allocate_exact(addr),
Some(addr))` panics — modelled as `none` — as soon as one is not free. -/
def allocRangeFuel : Nat → List Nat → Nat → Option (List Nat)
  | 0, free, _ => some free
  | n + 1, free, start =>
    match allocateExact free start with
    | some f2 => allocRangeFuel n f2 (start + 1)
    | none => none

/-- `for index in start..fin` of the shrink branch (`fin - start`
iterations). -/
def allocRange (free : List Nat) (start fin : Nat) : Option (List Nat) :=
  allocRangeFuel (fin - start) free start

/-- The expand direction of the same loop: deallocate each block of the
newly available tail range. -/
def deallocRangeFuel : Nat → List Nat → Nat → List Nat
  | 0, free, _ => free
  | n + 1, free, start => deallocRangeFuel n (deallocate free start) (start + 1)

/-- `for index in start..fin` of the expand branch. -/
def deallocRange (free : List Nat) (start fin : Nat) : List Nat :=
  deallocRangeFuel (fin - start) free start

/-- The one abort site of `resize`: the `assert_eq!` on `allocate_exact`
(a process panic in the source). -/
inductive ResizeErr
  | assertFailed
deriving DecidableEq

/-- Successful result of `resize`: the returned `(old_size, new_size)`
pair, the filesystem state afterwards, and whether the header-update
transaction (`tx.header.size = ..; tx.sync(true)`) ran. -/
structure ResizeOk where
  oldSize : Nat
  newSize : Nat
  fs : FsModel
  committed : Bool
deriving DecidableEq

/-- Embedding of `resize` (src/redoxfs.rs), with I/O assumed to succeed
(disk size read, log scan and commit errors are environmental failures
orthogonal to the block accounting).  If the computed new size equals the
declared size, return immediately with nothing mutated and no
transaction; on shrink, require every block of the vacated tail range
`new_blocks..old_blocks` from the allocator; on expand, free the range
`old_blocks..new_blocks`; then update the header size and commit with
squash. -/
def resize (fs : FsModel) (shrink : Bool) : Except ResizeErr ResizeOk :=
  if newSizeOf fs shrink = fs.headerSize then
    .ok ⟨fs.headerSize, newSizeOf fs shrink, fs, false⟩
  else if newSizeOf fs shrink < fs.headerSize then
    match allocRange fs.free (newSizeOf fs shrink / BLOCK_SIZE)
        (fs.headerSize / BLOCK_SIZE) with
    | some free2 =>
      .ok ⟨fs.headerSize, newSizeOf fs shrink,
        { fs with free := free2, headerSize := newSizeOf fs shrink }, true⟩
    | none => .error .assertFailed
  else
    .ok ⟨fs.headerSize, newSizeOf fs shrink,
      { fs with
          free := deallocRange fs.free (fs.headerSize / BLOCK_SIZE)
            (newSizeOf fs shrink / BLOCK_SIZE)
          headerSize := newSizeOf fs shrink }, true⟩

end RFs

end Redoxer

/-- C1: the VM launcher maps emulator exit status 51 to harness exit code 0,
status 53 to code 1, any other status to the indeterminate code 2, and a
harness-internal error (an `Err` from `inner`) to code 3, which is distinct
from every guest-reported result. -/
theorem exec_exit_code_mapping :
    Redoxer.Exec.statusToCode (some 51) = 0 ∧
    Redoxer.Exec.statusToCode (some 53) = 1 ∧
    (∀ st : Option Int, st ≠ some 51 → st ≠ some 53 →
      Redoxer.Exec.statusToCode st = 2) ∧
    (∀ e : Str, Redoxer.Exec.execMainCode (.error e) = 3) ∧
    (∀ (st : Option Int) (e : Str),
      Redoxer.Exec.execMainCode (.error e) ≠
        Redoxer.Exec.execMainCode (.ok (Redoxer.Exec.statusToCode st))) := by
  refine ⟨rfl, rfl, ?_, fun _ => rfl, ?_⟩
  · intro st h51 h53
    match st with
    | none => rfl
    | some n =>
      simp only [Redoxer.Exec.statusToCode]
  · intro st e
    simp only [Redoxer.Exec.execMainCode, Redoxer.Exec.statusToCode]
    split <;> omega

/-- C1 witness: the mapping evaluated at concrete statuses, including an
indeterminate one (status 1) and a build failure. -/
theorem exec_exit_code_mapping_witness :
    Redoxer.Exec.statusToCode (some 1) = 2 ∧
    Redoxer.Exec.execMainCode (.error "build failed".data) = 3 ∧
    Redoxer.Exec.execMainCode (.error "build failed".data) ≠
      Redoxer.Exec.execMainCode (.ok (Redoxer.Exec.statusToCode (some 53))) :=
  ⟨exec_exit_code_mapping.2.2.1 (some 1) (by decide) (by decide),
   exec_exit_code_mapping.2.2.2.1 "build failed".data,
   exec_exit_code_mapping.2.2.2.2 (some 53) "build failed".data⟩

namespace Redoxer.Exec

theorem mergeLoop_eq_copyDefaults (uo ua : List Str) :
    ∀ (fuel : Nat) (ds acc : List Str), wfDefaults ds = true → ds.length < fuel →
      mergeLoop uo ua fuel acc ds = some ((acc ++ copyDefaults uo ds) ++ ua) := by
  intro fuel
  induction fuel with
  | zero => intro ds acc _ h; omega
  | succ n ih =>
    intro ds acc hwf hlen
    match ds with
    | [] => simp [mergeLoop, copyDefaults]
    | [f] =>
      have hf : startsDash f = true := by simpa [wfDefaults] using hwf
      simp only [mergeLoop, hf]
      rw [if_neg (by simp)]
      rw [ih [] _ (by simp [wfDefaults]) (by simp at hlen ⊢; omega)]
      by_cases hm : f ∈ uo <;> simp [copyDefaults, hm]
    | f :: v :: rest2 =>
      have hwf2 := hwf
      simp only [wfDefaults, Bool.and_eq_true] at hwf2
      obtain ⟨hf, hrest⟩ := hwf2
      simp only [mergeLoop, hf]
      rw [if_neg (by simp)]
      by_cases hv : startsDash v = true
      · rw [if_pos hv]
        rw [ih (v :: rest2) _ (by simpa [hv] using hrest) (by simp at hlen ⊢; omega)]
        by_cases hm : f ∈ uo <;> simp [copyDefaults, hm, hv]
      · rw [if_neg hv]
        rw [ih rest2 _ (by simpa [hv] using hrest) (by simp at hlen ⊢; omega)]
        by_cases hm : f ∈ uo <;> simp [copyDefaults, hm, hv]

theorem mem_copyDefaults (uo : List Str) :
    ∀ (ds : List Str) (x : Str), x ∈ copyDefaults uo ds → x ∉ uo ∨ startsDash x = false := by
  have key : ∀ (n : Nat) (ds : List Str), ds.length ≤ n → ∀ x, x ∈ copyDefaults uo ds →
      x ∉ uo ∨ startsDash x = false := by
    intro n
    induction n with
    | zero =>
      intro ds hlen x hx
      match ds with
      | [] => simp [copyDefaults] at hx
      | _ :: _ => simp at hlen
    | succ n ih =>
      intro ds hlen x hx
      match ds with
      | [] => simp [copyDefaults] at hx
      | [f] =>
        by_cases hm : f ∈ uo
        · simp [copyDefaults, hm] at hx
        · simp [copyDefaults, hm] at hx
          subst hx; exact Or.inl hm
      | f :: v :: rest2 =>
        simp only [copyDefaults] at hx
        by_cases hv : startsDash v = true
        · rw [if_pos hv, List.mem_append] at hx
          rcases hx with hx | hx
          · by_cases hm : f ∈ uo
            · simp [hm] at hx
            · rw [if_neg hm] at hx
              simp at hx; subst hx; exact Or.inl hm
          · exact ih (v :: rest2) (by simp at hlen ⊢; omega) x hx
        · rw [if_neg hv, List.mem_append] at hx
          rcases hx with hx | hx
          · by_cases hm : f ∈ uo
            · simp [hm] at hx
            · rw [if_neg hm] at hx
              simp at hx
              rcases hx with hx | hx
              · subst hx; exact Or.inl hm
              · subst hx; exact Or.inr (by simpa using hv)
          · exact ih rest2 (by simp at hlen ⊢; omega) x hx
  intro ds x hx
  exact key ds.length ds le_rfl x hx

end Redoxer.Exec

/-- C2: for every valid defaults list (alternating flags and values, a flag
being single when the following token is absent or starts with a dash) and
every override token list, `apply_qemu_args` produces exactly the defaults
walk of the spec (each default flag, and its value if any, copied exactly
when the flag is not among the dash-prefixed override tokens) followed by
the full override list verbatim; consequently no flag name present in the
overrides also appears among the copied defaults. -/
theorem apply_qemu_args_merge_spec (ds ua : List Str)
    (hwf : Redoxer.Exec.wfDefaults ds = true) :
    Redoxer.Exec.applyQemuArgs ds (some ua) =
      some (Redoxer.Exec.copyDefaults (ua.filter (fun a => Redoxer.Exec.startsDash a)) ds ++ ua) ∧
    ∀ f ∈ ua.filter (fun a => Redoxer.Exec.startsDash a),
      f ∉ Redoxer.Exec.copyDefaults (ua.filter (fun a => Redoxer.Exec.startsDash a)) ds := by
  constructor
  · have := Redoxer.Exec.mergeLoop_eq_copyDefaults
      (ua.filter (fun a => Redoxer.Exec.startsDash a)) ua (ds.length + 1) ds [] hwf (by omega)
    simpa [Redoxer.Exec.applyQemuArgs] using this
  · intro f hf hmem
    rw [List.mem_filter] at hf
    rcases Redoxer.Exec.mem_copyDefaults _ ds f hmem with h | h
    · exact h (List.mem_filter.mpr hf)
    · rw [hf.2] at h; cases h

/-- C2 witness: merging defaults `-m 2048 -serial` with overrides
`-m 4096` keeps `-serial`, drops the default `-m 2048`, and appends the
overrides verbatim; `-m` does not appear among the copied defaults. -/
theorem apply_qemu_args_merge_spec_witness :
    Redoxer.Exec.applyQemuArgs ["-m".data, "2048".data, "-serial".data]
        (some ["-m".data, "4096".data]) =
      some ["-serial".data, "-m".data, "4096".data] ∧
    "-m".data ∉ Redoxer.Exec.copyDefaults
      (["-m".data, "4096".data].filter (fun a => Redoxer.Exec.startsDash a))
      ["-m".data, "2048".data, "-serial".data] :=
  ⟨(apply_qemu_args_merge_spec ["-m".data, "2048".data, "-serial".data]
      ["-m".data, "4096".data] (by decide)).1.trans (by decide),
   (apply_qemu_args_merge_spec ["-m".data, "2048".data, "-serial".data]
      ["-m".data, "4096".data] (by decide)).2 "-m".data (by decide)⟩

/-- C5 counterexample: with folder mapping `./proj:/root` the canonicalized
folder path is absolute (here `/host/proj`); the relative argument
`./proj/bin/app` does not start with it, so the guest configuration line
written for it is the argument verbatim, not `/root/bin/app`. -/
theorem writer_relative_arg_not_rewritten_cex :
    Redoxer.Writer.redoxerdConfig (some "/host/proj".data) ["./proj/bin/app".data] =
      "./proj/bin/app\n".data ∧
    Redoxer.Writer.configLine (some "/host/proj".data) "./proj/bin/app".data =
      ("./proj/bin/app".data, false) ∧
    "./proj/bin/app".data ≠ "/root/bin/app".data :=
  ⟨by decide, by decide, by decide⟩

/-- C5 (amended): an argument is rewritten (with the substitution logged)
exactly when it starts with the canonicalized absolute host folder path,
in which case that path is replaced by `/root`; an argument that does not
start with it — in particular the relative spelling `./proj/bin/app`, for
every absolute canonical path — is written verbatim and unlogged. -/
theorem writer_substitution_amended :
    (∀ (c arg : Str), c.isPrefixOf arg = true →
      Redoxer.Writer.configLine (some c) arg =
        (Redoxer.Writer.replaceAll arg c "/root".data, true)) ∧
    (∀ c : Str, List.isPrefixOf ['/'] c = true →
      Redoxer.Writer.configLine (some c) "./proj/bin/app".data =
        ("./proj/bin/app".data, false)) ∧
    Redoxer.Writer.redoxerdConfig (some "/host/proj".data) ["/host/proj/bin/app".data] =
      "/root/bin/app\n".data := by
  refine ⟨?_, ?_, by decide⟩
  · intro c arg h
    simp [Redoxer.Writer.configLine, h]
  · intro c hc
    match c with
    | [] => simp [List.isPrefixOf] at hc
    | a :: c2 =>
      simp only [List.isPrefixOf, Bool.and_eq_true, beq_iff_eq] at hc
      obtain ⟨rfl, -⟩ := hc
      simp [Redoxer.Writer.configLine, List.isPrefixOf]

/-- C5 witness: the amended rewrite rule evaluated at concrete inputs on
both sides of the prefix test. -/
theorem writer_substitution_amended_witness :
    Redoxer.Writer.configLine (some "/a".data) "/a/x".data =
      (Redoxer.Writer.replaceAll "/a/x".data "/a".data "/root".data, true) ∧
    Redoxer.Writer.configLine (some "/host/proj".data) "./proj/bin/app".data =
      ("./proj/bin/app".data, false) :=
  ⟨writer_substitution_amended.1 "/a".data "/a/x".data (by decide),
   writer_substitution_amended.2.1 "/host/proj".data (by decide)⟩

/-- C9 counterexample: `-f a:/x -a b:/x` declares the same mapping target
`/x` in the copy-in set and in the copy-out (artifact) set, yet parsing
succeeds (the two sets are separate maps; uniqueness is not enforced
across them). -/
theorem parse_folder_cross_set_cex :
    Redoxer.Exec.execNew
      { qemuBinaryEnv := none, qemuArgsEnv := none, fuse := true,
        baseTomlText := [], guiTomlText := [],
        readFile := fun _ => none, fileStem := fun s => s, isFile := fun _ => false }
      ["-f".data, "a:/x".data, "-a".data, "b:/x".data, "--".data, "cmd".data] =
      .ok { qemuBinary := none, qemuArgs := none, fuse := true,
            configName := "base".data, configToml := [],
            folders := [("x".data, "a".data)], artifacts := [("x".data, "b".data)],
            output := none, arguments := ["cmd".data] } := by decide

/-- C9 (amended): a mapping is `directory` or `directory:path` with an
absolute guest path, an omitted path defaulting to `/root`; parsing a
mapping fails exactly when its guest mount key is already present in the
set belonging to the SAME option (`--folder` and `--artifact` keep
separate sets, so the same target may occur once in each); malformed
mappings are rejected. -/
theorem parse_folder_unique_amended :
    (∀ (map : List (Str × Str)) (folder sr : Str),
      Redoxer.Exec.guestPathOf folder = some sr →
      (map.lookup (sr.drop 1)).isSome = true →
      Redoxer.Exec.parseFolder map folder = .error .folderNotUnique) ∧
    (∀ (map : List (Str × Str)) (folder sr : Str),
      Redoxer.Exec.guestPathOf folder = some sr →
      (map.lookup (sr.drop 1)).isSome = false →
      Redoxer.Exec.parseFolder map folder =
        .ok (map ++ [(sr.drop 1, Redoxer.Exec.dirPart folder)])) ∧
    (∀ (map : List (Str × Str)) (folder : Str),
      Redoxer.Exec.guestPathOf folder = none →
      Redoxer.Exec.parseFolder map folder = .error .folderNotAbsolute ∨
      Redoxer.Exec.parseFolder map folder = .error .folderBadFormat) ∧
    Redoxer.Exec.execNew
      { qemuBinaryEnv := none, qemuArgsEnv := none, fuse := false,
        baseTomlText := [], guiTomlText := [],
        readFile := fun _ => none, fileStem := fun s => s, isFile := fun _ => false }
      ["-f".data, "a:/y".data, "-f".data, "b:/y".data] = .error .folderNotUnique := by
  have key : ∀ (map : List (Str × Str)) (folder sr : Str),
      Redoxer.Exec.guestPathOf folder = some sr →
      Redoxer.Exec.parseFolder map folder =
        Redoxer.Exec.insertMapping map (Redoxer.Exec.dirPart folder) sr := by
    intro map folder sr hg
    unfold Redoxer.Exec.guestPathOf at hg
    unfold Redoxer.Exec.parseFolder
    by_cases h0 : folder.count ':' = 0
    · rw [if_pos h0] at hg
      obtain rfl : "/root".data = sr := Option.some.inj hg
      rw [if_pos h0]
      have hdir : Redoxer.Exec.dirPart folder = folder := by
        unfold Redoxer.Exec.dirPart
        rw [List.takeWhile_eq_self_iff]
        intro c hc
        rw [List.count_eq_zero] at h0
        simp only [decide_eq_true_eq]
        intro hcolon
        exact h0 (by simpa [hcolon] using hc)
      rw [hdir]
    · by_cases h1 : folder.count ':' = 1
      · rw [if_neg h0, if_pos h1] at hg
        by_cases hp : List.isPrefixOf ['/'] (Redoxer.Exec.sysrootPart folder) = true
        · rw [if_pos hp] at hg
          obtain rfl : Redoxer.Exec.sysrootPart folder = sr := Option.some.inj hg
          rw [if_neg h0, if_pos h1, if_pos hp]
        · rw [if_neg hp] at hg; cases hg
      · rw [if_neg h0, if_neg h1] at hg; cases hg
  refine ⟨?_, ?_, ?_, by decide⟩
  · intro map folder sr hg hl
    rw [key map folder sr hg]
    unfold Redoxer.Exec.insertMapping
    rw [if_pos hl]
  · intro map folder sr hg hl
    rw [key map folder sr hg]
    unfold Redoxer.Exec.insertMapping
    rw [if_neg (by rw [hl]; exact Bool.false_ne_true)]
  · intro map folder hg
    unfold Redoxer.Exec.guestPathOf at hg
    unfold Redoxer.Exec.parseFolder
    by_cases h0 : folder.count ':' = 0
    · rw [if_pos h0] at hg; cases hg
    · by_cases h1 : folder.count ':' = 1
      · rw [if_neg h0, if_pos h1] at hg
        by_cases hp : List.isPrefixOf ['/'] (Redoxer.Exec.sysrootPart folder) = true
        · rw [if_pos hp] at hg; cases hg
        · left; rw [if_neg h0, if_pos h1, if_neg hp]
      · right; rw [if_neg h0, if_neg h1]

/-- C9 witness: the amended uniqueness rule evaluated on concrete maps: a
duplicate guest key `/x` in the same set is rejected, a fresh one is
inserted with the `/root` default. -/
theorem parse_folder_unique_amended_witness :
    Redoxer.Exec.parseFolder [("x".data, "a".data)] "b:/x".data =
      .error .folderNotUnique ∧
    Redoxer.Exec.parseFolder [] "somedir".data =
      .ok [("root".data, "somedir".data)] :=
  ⟨parse_folder_unique_amended.1 [("x".data, "a".data)] "b:/x".data "/x".data
      (by decide) (by decide),
   (parse_folder_unique_amended.2.1 [] "somedir".data "/root".data
      (by decide) (by decide)).trans (by decide)⟩

/-- C8: when the cached image file exists and the recorded manifest equals
the requested manifest, `base` returns the cached image path with no
effects at all; consequently a second call with an unchanged manifest
after any successful call performs no rebuild and changes nothing. -/
theorem base_idempotent :
    (∀ (name : Str) (st : Redoxer.Exec.BaseState) (cfg : Str) (fuse orb : Bool),
      st.baseFile = true → st.baseToml = some cfg →
      Redoxer.Exec.base name st cfg fuse true orb =
        .ok (st, [], (Redoxer.Exec.basePath name fuse, orb))) ∧
    (∀ (name : Str) (st st1 : Redoxer.Exec.BaseState) (cfg : Str) (fuse orb : Bool)
      (acts : List Redoxer.Exec.BaseAct) (r : Str × Bool),
      Redoxer.Exec.base name st cfg fuse true orb = .ok (st1, acts, r) →
      Redoxer.Exec.base name st1 cfg fuse true orb =
        .ok (st1, [], (Redoxer.Exec.basePath name fuse, orb))) := by
  have hfresh : ∀ (st : Redoxer.Exec.BaseState) (cfg : Str),
      st.baseToml = some cfg → Redoxer.Exec.baseStale st cfg = (st, []) := by
    intro st cfg ht
    unfold Redoxer.Exec.baseStale
    rw [if_neg]
    intro h
    exact h.2.2 ht
  have hone : ∀ (name : Str) (st : Redoxer.Exec.BaseState) (cfg : Str) (fuse orb : Bool),
      st.baseFile = true → st.baseToml = some cfg →
      Redoxer.Exec.base name st cfg fuse true orb =
        .ok (st, [], (Redoxer.Exec.basePath name fuse, orb)) := by
    intro name st cfg fuse orb hf ht
    unfold Redoxer.Exec.base
    rw [if_neg (by decide)]
    rw [hfresh st cfg ht]
    simp [hf]
  refine ⟨hone, ?_⟩
  intro name st st1 cfg fuse orb acts r h
  unfold Redoxer.Exec.base at h
  rw [if_neg (by decide)] at h
  by_cases hb : (Redoxer.Exec.baseStale st cfg).1.baseFile = true
  · rw [if_pos hb] at h
    simp only [Except.ok.injEq, Prod.mk.injEq] at h
    obtain ⟨h1, -, -⟩ := h
    subst h1
    -- the stale branch cannot have fired, else `baseFile` would be false
    by_cases hc : st.baseToml.isSome = true ∧ st.baseFile = true ∧ st.baseToml ≠ some cfg
    · rw [Redoxer.Exec.baseStale, if_pos hc] at hb
      simp at hb
    · have hs : Redoxer.Exec.baseStale st cfg = (st, []) := by
        unfold Redoxer.Exec.baseStale; rw [if_neg hc]
      rw [hs] at hb ⊢
      -- the state is unchanged: the original toml may or may not match,
      -- but the stale branch did not fire, so a second call behaves the same
      unfold Redoxer.Exec.base
      rw [if_neg (by decide), hs, if_pos hb]
  · rw [if_neg hb] at h
    simp only [Except.ok.injEq, Prod.mk.injEq] at h
    obtain ⟨h1, -, -⟩ := h
    subst h1
    have hf : (Redoxer.Exec.baseBuild (Redoxer.Exec.baseStale st cfg).1 cfg fuse).1.baseFile
        = true := by
      simp [Redoxer.Exec.baseBuild]
    have ht : (Redoxer.Exec.baseBuild (Redoxer.Exec.baseStale st cfg).1 cfg fuse).1.baseToml
        = some cfg := by
      simp [Redoxer.Exec.baseBuild]
    exact hone name _ cfg fuse orb hf ht

/-- C8 witness: starting from a valid cache entry (image present, manifest
matching), a call performs no effects; and from an empty cache the first
call builds while the second does nothing. -/
theorem base_idempotent_witness :
    Redoxer.Exec.base "base".data
        { baseFile := true, baseToml := some "cfg".data, baseDir := false,
          staged := false, baseTar := false } "cfg".data true true false =
      .ok ({ baseFile := true, baseToml := some "cfg".data, baseDir := false,
             staged := false, baseTar := false }, [],
           (Redoxer.Exec.basePath "base".data true, false)) ∧
    Redoxer.Exec.base "base".data
        { baseFile := false, baseToml := none, baseDir := false,
          staged := false, baseTar := false } "cfg".data true true false =
      .ok ({ baseFile := true, baseToml := some "cfg".data, baseDir := false,
             staged := false, baseTar := false },
           [.createDir, .installMount, .shrinkDisk, .renameStaged, .removeDir, .writeToml],
           (Redoxer.Exec.basePath "base".data true, false)) ∧
    Redoxer.Exec.base "base".data
        { baseFile := true, baseToml := some "cfg".data, baseDir := false,
          staged := false, baseTar := false } "cfg".data true true false =
      .ok ({ baseFile := true, baseToml := some "cfg".data, baseDir := false,
             staged := false, baseTar := false }, [],
           (Redoxer.Exec.basePath "base".data true, false)) :=
  ⟨base_idempotent.1 "base".data
      { baseFile := true, baseToml := some "cfg".data, baseDir := false,
        staged := false, baseTar := false } "cfg".data true false rfl rfl,
   by decide,
   base_idempotent.2 "base".data
      { baseFile := false, baseToml := none, baseDir := false,
        staged := false, baseTar := false }
      { baseFile := true, baseToml := some "cfg".data, baseDir := false,
        staged := false, baseTar := false } "cfg".data true false
      [.createDir, .installMount, .shrinkDisk, .renameStaged, .removeDir, .writeToml]
      (Redoxer.Exec.basePath "base".data true, false) (by decide)⟩

namespace Redoxer.Daemon

theorem map_getD_range : ∀ (n : Nat) (l : List Nat), n ≤ l.length →
    (List.range n).map (fun i => l.getD i 0) = l.take n := by
  intro n
  induction n with
  | zero => simp
  | succ n ih =>
    intro l hn
    rw [List.range_succ, List.map_append, ih l (by omega)]
    have hlt : n < l.length := by omega
    simp only [List.map_cons, List.map_nil]
    rw [List.getD_eq_getElem l 0 hlt, List.take_succ, List.getElem?_eq_getElem hlt]
    rfl

theorem stdoutSlice_readPacket (bytes : List Nat) :
    stdoutSlice (readPacket bytes) bytes.length = bytes.drop 1 := by
  unfold stdoutSlice readPacket
  rw [List.take_left]

theorem debugconSeq_readPacket (bytes : List Nat) :
    debugconSeq (readPacket bytes) bytes.length = bytes.drop 1 := by
  unfold debugconSeq
  rw [List.map_drop, map_getD_range bytes.length (readPacket bytes) (by simp [readPacket])]
  unfold readPacket
  rw [List.take_left]

theorem drainPty_data (bytes : List Nat) (rest : List PtyRead) (h : bytes ≠ []) :
    drainPty (.ok bytes :: rest) =
      ⟨(Output.stdout (bytes.drop 1) :: (bytes.drop 1).map Output.debugcon) ++
        (drainPty rest).outs,
       (drainPty rest).cont, (drainPty rest).rest⟩ := by
  have hl : bytes.length ≠ 0 := by simpa using h
  simp only [drainPty, hl, if_false, stdoutSlice_readPacket, debugconSeq_readPacket]

theorem drainPty_front (front : List (List Nat)) (restQ : List PtyRead)
    (h : ∀ bs ∈ front, bs ≠ []) :
    drainPty ((front.map PtyRead.ok) ++ PtyRead.ok [] :: restQ) =
      ⟨drainOutsOf front, some false, restQ⟩ := by
  induction front with
  | nil => simp [drainPty, drainOutsOf]
  | cons bs front2 ih =>
    have hbs : bs ≠ [] := h bs (by simp)
    rw [List.map_cons, List.cons_append, drainPty_data bs _ hbs,
      ih (fun x hx => h x (by simp [hx]))]
    simp [drainOutsOf]

end Redoxer.Daemon

/-- C3: in the guest supervisor event loop, a zero-length PTY read while
the child has not been observed to exit makes the loop stop consuming
events (the result does not depend on any remaining events or try-wait
answers), kill the child, and return the status the blocking wait
delivers; whereas a child exit observed by the non-blocking check, with
the terminal still open (arbitrary PTY state), returns the child's real
status immediately with no kill. -/
theorem daemon_loop_eof_and_child_exit :
    (∀ (front : List (List Nat)) (restQ : List Redoxer.Daemon.PtyRead)
        (tws : List Redoxer.Daemon.TryWait) (evs : List Redoxer.Daemon.EvData)
        (timer : List (Option Int)) (w : Int),
      (∀ bs ∈ front, bs ≠ []) →
      Redoxer.Daemon.loopRun w (.pty :: evs) (.running :: tws)
          ((front.map Redoxer.Daemon.PtyRead.ok) ++ Redoxer.Daemon.PtyRead.ok [] :: restQ)
          timer =
        some (.status w true, Redoxer.Daemon.drainOutsOf front)) ∧
    (∀ (s : Int) (tws : List Redoxer.Daemon.TryWait) (evs : List Redoxer.Daemon.EvData)
        (pty : List Redoxer.Daemon.PtyRead) (timer : List (Option Int)) (w : Int),
      Redoxer.Daemon.loopRun w evs (.exited s :: tws) pty timer =
        some (.status s false, [])) := by
  constructor
  · intro front restQ tws evs timer w h
    have hd := Redoxer.Daemon.drainPty_front front restQ h
    simp [Redoxer.Daemon.loopRun, Redoxer.Daemon.handleEvent, hd]
  · intro s tws evs pty timer w
    match evs with
    | [] => simp [Redoxer.Daemon.loopRun]
    | ev :: evs2 => simp [Redoxer.Daemon.loopRun]

/-- C3 witness: a drain after one two-byte read, and an observed child
exit, evaluated concretely. -/
theorem daemon_loop_eof_and_child_exit_witness :
    Redoxer.Daemon.loopRun 7 [.pty] [.running]
        [.ok [5, 72], .ok []] [] =
      some (.status 7 true,
        [.stdout [72], .debugcon 72]) ∧
    Redoxer.Daemon.loopRun 5 [.pty, .timer] [.exited 3]
        [.ok [5, 72]] [some 0] =
      some (.status 3 false, []) :=
  ⟨(daemon_loop_eof_and_child_exit.1 [[5, 72]] [] [] [] [] 7
      (by decide)).trans (by decide),
   daemon_loop_eof_and_child_exit.2 3 [] [.pty, .timer] [.ok [5, 72]] [some 0] 5⟩

/-- C10: every successful read of `count` bytes in the Pty handler
forwards exactly the bytes at buffer indices 1 through `count - 1` — the
first byte is always dropped — first to the guest's standard output as a
single write, then mirrored to the debugcon port one byte at a time in
the same order, before the loop reads again. -/
theorem pty_forward_drops_first_byte (bytes : List Nat) (rest : List Redoxer.Daemon.PtyRead)
    (h : bytes ≠ []) :
    Redoxer.Daemon.drainPty (.ok bytes :: rest) =
      ⟨(Redoxer.Daemon.Output.stdout (bytes.drop 1) ::
         (bytes.drop 1).map Redoxer.Daemon.Output.debugcon) ++
        (Redoxer.Daemon.drainPty rest).outs,
       (Redoxer.Daemon.drainPty rest).cont,
       (Redoxer.Daemon.drainPty rest).rest⟩ :=
  Redoxer.Daemon.drainPty_data bytes rest h

/-- C10 witness: a three-byte read forwards only the last two bytes, to
stdout first and then bytewise to debugcon. -/
theorem pty_forward_drops_first_byte_witness :
    Redoxer.Daemon.drainPty [.ok [7, 65, 66]] =
      ⟨[.stdout [65, 66], .debugcon 65, .debugcon 66], some true, []⟩ :=
  (pty_forward_drops_first_byte [7, 65, 66] [] (by decide)).trans (by decide)

/-- C4 counterexample: on failure the daemon writes only the completion
code `53 / 2` to port `0x501` (after the error line and flush sleep); it
performs no write at all to the shutdown port `0x604`, so "writes values
indicating failure to the same two ports" is false. -/
theorem daemon_failure_single_port_cex :
    Redoxer.Daemon.daemonMain (.error "true failed with exit status 1".data) =
      [.errLine "true failed with exit status 1".data, .sleepMs 100,
       .portWrite8 0x501 26] ∧
    (Redoxer.Daemon.daemonMain
        (.error "true failed with exit status 1".data)).filter
      Redoxer.Daemon.writesShutdownPort = [] :=
  ⟨by decide, by decide⟩

/-- C4 (amended): on child success the daemon writes the signal value
`0x2000` to the shutdown port `0x604` and then the distinct success
completion code `51 / 2` to the second port `0x501`; on failure it first
emits a human-readable error line to the guest error stream (and sleeps
for the tty flush) and then writes only the failure completion code
`53 / 2` to port `0x501` — the shutdown port is not written on failure. -/
theorem daemon_signal_ports_amended :
    Redoxer.Daemon.daemonMain (.ok ()) =
      [.portWrite16 0x604 0x2000, .portWrite8 0x501 (51 / 2)] ∧
    (∀ e : Str,
      Redoxer.Daemon.daemonMain (.error e) =
        [.errLine e, .sleepMs 100, .portWrite8 0x501 (53 / 2)] ∧
      (Redoxer.Daemon.daemonMain (.error e)).filter
        Redoxer.Daemon.writesShutdownPort = []) ∧
    (51 : Nat) / 2 ≠ 53 / 2 := by
  refine ⟨rfl, ?_, by decide⟩
  intro e
  constructor
  · rfl
  · simp [Redoxer.Daemon.daemonMain, Redoxer.Daemon.writesShutdownPort]

namespace Redoxer.RFs

theorem allocRangeFuel_mem : ∀ (n : Nat) (free free2 : List Nat) (start : Nat),
    allocRangeFuel n free start = some free2 →
    ∀ i, start ≤ i → i < start + n → i ∈ free := by
  intro n
  induction n with
  | zero => intro free free2 start _ i h1 h2; omega
  | succ n ih =>
    intro free free2 start h i h1 h2
    unfold allocRangeFuel allocateExact at h
    by_cases hs : start ∈ free
    · rw [if_pos hs] at h
      by_cases hi : i = start
      · exact hi ▸ hs
      · exact List.mem_of_mem_erase
          (ih (free.erase start) free2 (start + 1) h i (by omega) (by omega))
    · rw [if_neg hs] at h
      cases h

theorem allocRangeFuel_missing : ∀ (n : Nat) (free : List Nat) (start i : Nat),
    start ≤ i → i < start + n → i ∉ free →
    allocRangeFuel n free start = none := by
  intro n
  induction n with
  | zero => intro free start i h1 h2; omega
  | succ n ih =>
    intro free start i h1 h2 hni
    unfold allocRangeFuel allocateExact
    by_cases hs : start ∈ free
    · rw [if_pos hs]
      have hne : i ≠ start := fun he => hni (he ▸ hs)
      exact ih (free.erase start) (start + 1) i (by omega) (by omega)
        (fun hm => hni (List.mem_of_mem_erase hm))
    · rw [if_neg hs]

end Redoxer.RFs

/-- C6: during a shrink (computed new size strictly below the declared
size), `resize` succeeds only if every block index of the vacated tail
range, from the new block count up to the old block count, is actually
free in the allocator; if any block in that range is not free, the
operation aborts with the assertion failure and commits nothing. -/
theorem resize_shrink_requires_free_tail (fs : Redoxer.RFs.FsModel)
    (hsh : Redoxer.RFs.newSizeOf fs true < fs.headerSize) :
    ((∃ r, Redoxer.RFs.resize fs true = .ok r) →
      ∀ i, Redoxer.RFs.newSizeOf fs true / Redoxer.RFs.BLOCK_SIZE ≤ i →
        i < fs.headerSize / Redoxer.RFs.BLOCK_SIZE → i ∈ fs.free) ∧
    ((∃ i, Redoxer.RFs.newSizeOf fs true / Redoxer.RFs.BLOCK_SIZE ≤ i ∧
        i < fs.headerSize / Redoxer.RFs.BLOCK_SIZE ∧ i ∉ fs.free) →
      Redoxer.RFs.resize fs true = .error .assertFailed) := by
  have hnb : Redoxer.RFs.newSizeOf fs true / Redoxer.RFs.BLOCK_SIZE ≤
      fs.headerSize / Redoxer.RFs.BLOCK_SIZE :=
    Nat.div_le_div_right (Nat.le_of_lt hsh)
  constructor
  · rintro ⟨r, hr⟩ i h1 h2
    unfold Redoxer.RFs.resize at hr
    rw [if_neg (Nat.ne_of_lt hsh), if_pos hsh] at hr
    cases hall : Redoxer.RFs.allocRange fs.free
        (Redoxer.RFs.newSizeOf fs true / Redoxer.RFs.BLOCK_SIZE)
        (fs.headerSize / Redoxer.RFs.BLOCK_SIZE) with
    | none => rw [hall] at hr; cases hr
    | some free2 =>
      exact Redoxer.RFs.allocRangeFuel_mem _ fs.free free2 _ hall i h1 (by omega)
  · rintro ⟨i, h1, h2, h3⟩
    unfold Redoxer.RFs.resize
    rw [if_neg (Nat.ne_of_lt hsh), if_pos hsh]
    rw [show Redoxer.RFs.allocRange fs.free
        (Redoxer.RFs.newSizeOf fs true / Redoxer.RFs.BLOCK_SIZE)
        (fs.headerSize / Redoxer.RFs.BLOCK_SIZE) = none from
      Redoxer.RFs.allocRangeFuel_missing _ fs.free _ i h1 (by omega) h3]

/-- C6 witness: with declared size 8192 (two blocks) and last free extent
starting at block 1 (shrink target 4096), the tail range is the single
block 1: when block 1 is free the shrink succeeds and the theorem yields
its membership; when the free list is empty the resize aborts with the
assertion failure. -/
theorem resize_shrink_requires_free_tail_witness :
    (1 : Nat) ∈
      ({ diskSize := 16384, block := 0, headerSize := 8192, allocLog := [{ index := 1, count := 3 }], free := [1] } : Redoxer.RFs.FsModel).free ∧
    Redoxer.RFs.resize
        { diskSize := 16384, block := 0, headerSize := 8192, allocLog := [{ index := 1, count := 3 }], free := [] } true =
      .error .assertFailed :=
  ⟨(resize_shrink_requires_free_tail
      { diskSize := 16384, block := 0, headerSize := 8192, allocLog := [{ index := 1, count := 3 }], free := [1] }
      (by decide)).1
      ⟨⟨8192, 4096, { diskSize := 16384, block := 0, headerSize := 4096, allocLog := [{ index := 1, count := 3 }], free := [] }, true⟩, by decide⟩
      1 (by decide) (by decide),
   (resize_shrink_requires_free_tail
      { diskSize := 16384, block := 0, headerSize := 8192, allocLog := [{ index := 1, count := 3 }], free := [] }
      (by decide)).2 ⟨1, by decide, by decide, by decide⟩⟩

/-- C7: whenever the computed new size (minimal safe size when shrinking,
maximal size when expanding) equals the current declared size, `resize`
is a no-op: it returns the unchanged `(old_size, new_size)` pair with the
filesystem state untouched and no transaction committed. -/
theorem resize_noop_when_size_unchanged (fs : Redoxer.RFs.FsModel) (shrink : Bool)
    (h : Redoxer.RFs.newSizeOf fs shrink = fs.headerSize) :
    Redoxer.RFs.resize fs shrink = .ok ⟨fs.headerSize, fs.headerSize, fs, false⟩ := by
  unfold Redoxer.RFs.resize
  rw [if_pos h, h]

/-- C7 witness: a shrink whose last free extent already starts at the
declared size boundary, and an expand whose maximal size equals the
declared size, both evaluated concretely as no-ops. -/
theorem resize_noop_when_size_unchanged_witness :
    Redoxer.RFs.resize
        { diskSize := 16384, block := 0, headerSize := 8192, allocLog := [{ index := 2, count := 5 }], free := [] } true =
      .ok ⟨8192, 8192, { diskSize := 16384, block := 0, headerSize := 8192, allocLog := [{ index := 2, count := 5 }], free := [] }, false⟩ ∧
    Redoxer.RFs.resize
        { diskSize := 12288, block := 1, headerSize := 8192, allocLog := [], free := [] } false =
      .ok ⟨8192, 8192, { diskSize := 12288, block := 1, headerSize := 8192, allocLog := [], free := [] }, false⟩ :=
  ⟨resize_noop_when_size_unchanged
      { diskSize := 16384, block := 0, headerSize := 8192, allocLog := [{ index := 2, count := 5 }], free := [] } true (by decide),
   resize_noop_when_size_unchanged
      { diskSize := 12288, block := 1, headerSize := 8192, allocLog := [], free := [] } false (by decide)⟩
